import Mathlib

/-!
Verification development for the GitHub user activity CLI
(source: `useractivity.py`).

The embedding models the two algorithmic components of the script:

* `fetch_github_activity` — the network fetch wrapped in
  `functools.lru_cache(maxsize=10)`, modelled as a pure state-passing
  operation over an injected network collaborator.  The wrapper memoises
  whatever the body returns, including the `None` produced by every error
  branch and by the empty-result branch.

* `display_github_activity` — the event classifier, aggregator and
  renderer, with Python's exception flow made explicit through `Except`.

Machine-level concerns (terminal colouring, the progress bar, the blocking
HTTP transport and the interactive prompt loop) are external collaborators
in the source and are represented by parameters or omitted.
-/

namespace UserActivity

/-- One event record of the JSON response.  Each field of the Python dict may
be absent (`none`).  The `actor`, `repo` and `payload` fields, when present,
are mappings whose single relevant entry (`login`, `name`, `ref_type`) may in
turn be absent, hence `Option (Option String)`. -/
structure EventDict where
  actor : Option (Option String)
  created_at : Option String
  type : Option String
  repo : Option (Option String)
  payload : Option (Option String)
deriving DecidableEq

/-- An element of the fetched JSON list.  `dict` is a mapping record;
`nonDict` is any non-mapping value, on which every `.get` attribute access
raises `AttributeError`. -/
inductive Event where
  | dict (d : EventDict)
  | nonDict
deriving DecidableEq

/-- The Python exceptions that the script's code paths can raise or catch. -/
inductive PyErr where
  | keyError (key : String)
  | valueError (msg : String)
  | attributeError (msg : String)
  | unboundLocalError (name : String)
deriving DecidableEq

/-- Outcome of the injected network collaborator
(`requests.get` + `raise_for_status` + `.json()`), classified exactly as the
`except` ladder of `fetch_github_activity` distinguishes the cases. -/
inductive FetchOutcome where
  | success (data : List Event)
  | connectionError
  | timeout
  | httpError (status : Nat)
  | jsonDecodeError
  | requestError
  | otherError
deriving DecidableEq

/-- The undecorated body of `fetch_github_activity` (lines 17-64).  A
successful response with a non-empty list returns the data; the
empty-response branch (`if not data`) and every `except` branch print a
message and fall through to an implicit `return None`, modelled as `none`. -/
def fetch_github_activity_body (net : String → FetchOutcome) (u : String) :
    Option (List Event) :=
  match net u with
  | .success data => if data.isEmpty then none else some data
  | .connectionError => none
  | .timeout => none
  | .httpError _ => none
  | .jsonDecodeError => none
  | .requestError => none
  | .otherError => none

/-- The memoisation table of `functools.lru_cache`, most recently used
entry first.  Values are whatever the body returned, `None` included. -/
abbrev CacheState := List (String × Option (List Event))

/-- Key lookup in the memoisation table. -/
def cacheLookup : CacheState → String → Option (Option (List Event))
  | [], _ => none
  | (k, v) :: rest, u => if u = k then some v else cacheLookup rest u

/-- Drop the entry for a key (used to model `move_to_end` on a hit). -/
def removeKey : CacheState → String → CacheState
  | [], _ => []
  | (k, v) :: rest, u => if k = u then removeKey rest u else (k, v) :: removeKey rest u

/-- `fetch_github_activity` as decorated with `@lru_cache(maxsize=10)`
(line 16): on a hit the stored value is returned and the entry moves to the
most-recently-used position without calling the body; on a miss the body
runs, its result — `None` included — is stored at the front, and the table
is truncated to the 10 most recent entries.  The returned `Bool` records
whether the network collaborator was invoked by this call. -/
def fetch_github_activity (net : String → FetchOutcome) (st : CacheState)
    (u : String) : Option (List Event) × CacheState × Bool :=
  match cacheLookup st u with
  | some v => (v, (u, v) :: removeKey st u, false)
  | none =>
    let v := fetch_github_activity_body net u
    (v, ((u, v) :: st).take 10, true)

/-- A network collaborator that always answers HTTP 404. -/
def net404 : String → FetchOutcome := fun _ => .httpError 404

/-- A network collaborator that always succeeds with one event. -/
def netAll : String → FetchOutcome := fun _ =>
  .success [Event.dict ⟨some (some "m"), some "2024-01-01T00:00:00Z",
    some "WatchEvent", some (some "r/r"), none⟩]

/-- Run a sequence of cache lookups, keeping only the cache state. -/
def fillCache (net : String → FetchOutcome) (us : List String)
    (st : CacheState) : CacheState :=
  us.foldl (fun s u => (fetch_github_activity net s u).2.1) st

/-- Ten distinct usernames, used to fill the cache to capacity. -/
def tenUsers : List String :=
  ["u01", "u02", "u03", "u04", "u05", "u06", "u07", "u08", "u09", "u10"]

/-- A parsed `datetime` value as built by `datetime.strptime`. -/
structure DateTime where
  year : Nat
  month : Nat
  day : Nat
  hour : Nat
  minute : Nat
  second : Nat
deriving DecidableEq

/-- Numeric value of a list of decimal digit characters. -/
def digitsToNat (cs : List Char) : Nat :=
  cs.foldl (fun n c => n * 10 + (c.toNat - 48)) 0

/-- Day count of a month, as validated by the `datetime` constructor. -/
def daysInMonth (year month : Nat) : Nat :=
  if month = 2 then
    if (year % 4 = 0 ∧ year % 100 ≠ 0) ∨ year % 400 = 0 then 29 else 28
  else if month = 4 ∨ month = 6 ∨ month = 9 ∨ month = 11 then 30 else 31

/-- `datetime.strptime(s, "%Y-%m-%dT%H:%M:%SZ")` (line 81), modelled for the
zero-padded fixed-width timestamps the GitHub API emits; any string of a
different shape or with an out-of-range field raises `ValueError`, modelled
as `none`. -/
def strptimeIso (s : String) : Option DateTime :=
  match s.data with
  | [y1, y2, y3, y4, s1, mo1, mo2, s2, d1, d2, t0,
     h1, h2, c1, n1, n2, c2, e1, e2, z0] =>
    if y1.isDigit && y2.isDigit && y3.isDigit && y4.isDigit
        && (s1 == '-') && mo1.isDigit && mo2.isDigit && (s2 == '-')
        && d1.isDigit && d2.isDigit && (t0 == 'T')
        && h1.isDigit && h2.isDigit && (c1 == ':')
        && n1.isDigit && n2.isDigit && (c2 == ':')
        && e1.isDigit && e2.isDigit && (z0 == 'Z') then
      let year := digitsToNat [y1, y2, y3, y4]
      let month := digitsToNat [mo1, mo2]
      let day := digitsToNat [d1, d2]
      let hour := digitsToNat [h1, h2]
      let minute := digitsToNat [n1, n2]
      let second := digitsToNat [e1, e2]
      if 1 ≤ year ∧ 1 ≤ month ∧ month ≤ 12 ∧ 1 ≤ day
          ∧ day ≤ daysInMonth year month ∧ hour ≤ 23
          ∧ minute ≤ 59 ∧ second ≤ 59 then
        some ⟨year, month, day, hour, minute, second⟩
      else none
    else none
  | _ => none

/-- `events[0].get("actor","").get("login","UnkownUser")` (line 75).  When
the `actor` key is absent the first `.get` yields the default `""`, a string,
and the chained `.get` raises `AttributeError`; a non-mapping list element
raises `AttributeError` at the first `.get`. -/
def getUser : Event → Except PyErr String
  | .nonDict => .error (.attributeError "list element has no attribute get")
  | .dict d =>
    match d.actor with
    | none => .error (.attributeError "str object has no attribute get")
    | some login => .ok (login.getD "UnkownUser")

/-- `events[0]["created_at"]` (line 81): subscripting a mapping without the
key raises `KeyError`. -/
def getCreatedAt : Event → Except PyErr String
  | .nonDict => .error (.attributeError "list element is not subscriptable")
  | .dict d =>
    match d.created_at with
    | none => .error (.keyError "created_at")
    | some s => .ok s

/-- `event.get("type", "UnknownEvent")` (line 88). -/
def getType : Event → Except PyErr String
  | .nonDict => .error (.attributeError "list element has no attribute get")
  | .dict d => .ok (d.type.getD "UnknownEvent")

/-- `event.get("repo", {}).get("name", "UnknownRepo")` (line 89). -/
def getRepoName : Event → Except PyErr String
  | .nonDict => .error (.attributeError "list element has no attribute get")
  | .dict d => .ok ((d.repo.getD none).getD "UnknownRepo")

/-- `event.get("payload",{}).get("ref_type", "UnknownRefType")` (line 99). -/
def getRefType : Event → Except PyErr String
  | .nonDict => .error (.attributeError "list element has no attribute get")
  | .dict d => .ok ((d.payload.getD none).getD "UnknownRefType")

/-- `sub` occurs as a contiguous run inside `l`. -/
def charsPrefixOf : List Char → List Char → Bool
  | [], _ => true
  | a :: as, l =>
    match l with
    | [] => false
    | b :: bs => a == b && charsPrefixOf as bs

/-- Substring test on character lists, modelling Python's `in` on `str`. -/
def charsContains (sub : List Char) (l : List Char) : Bool :=
  match l with
  | [] => sub.isEmpty
  | _ :: rest => charsPrefixOf sub l || charsContains sub rest

/-- Python's `str.lower()`, character by character (the event kinds and
filters in play are ASCII). -/
def pyLower (s : String) : String :=
  ⟨s.data.map Char.toLower⟩

/-- `filter_type and filter_type.lower() not in event_type.lower()`
(line 91): `None` and the empty string are falsy and disable filtering;
otherwise the event is skipped when the lowered filter is not a substring of
the lowered kind. -/
def skipByFilter (filter_type : Option String) (event_type : String) : Bool :=
  match filter_type with
  | none => false
  | some f =>
    if f = "" then false
    else !(charsContains (pyLower f).data (pyLower event_type).data)

/-- Per-repository, per-kind occurrence counts, in insertion order — the
`defaultdict(lambda: defaultdict(int))` of line 73 (Python dicts preserve
insertion order). -/
abbrev Grouped := List (String × List (String × Nat))

/-- Increment a kind's count inside one repository bucket, appending a fresh
kind at the end (defaultdict starts it at 0 before the `+= 1`). -/
def bumpInner (l : List (String × Nat)) (k : String) : List (String × Nat) :=
  match l with
  | [] => [(k, 1)]
  | (k0, c) :: rest =>
    if k0 = k then (k0, c + 1) :: rest else (k0, c) :: bumpInner rest k

/-- `grouped_events[repo_name][event_type] += 1` (line 102). -/
def bumpGrouped (g : Grouped) (repo k : String) : Grouped :=
  match g with
  | [] => [(repo, [(k, 1)])]
  | (r0, inner) :: rest =>
    if r0 = repo then (r0, bumpInner inner k) :: rest
    else (r0, inner) :: bumpGrouped rest repo k

/-- One iteration of the `for event in events` loop (lines 87-102): compute
kind and repository (raising on non-mappings), apply the filter, then either
emit a special message or bump the grouped count. -/
def processEvent (filter_type : Option String) (g : Grouped)
    (msgs : List String) (e : Event) : Except PyErr (Grouped × List String) :=
  match getType e with
  | .error err => .error err
  | .ok event_type =>
    match getRepoName e with
    | .error err => .error err
    | .ok repo_name =>
      if skipByFilter filter_type event_type then
        .ok (g, msgs)
      else if event_type = "WatchEvent" then
        .ok (g, msgs ++ ["⭐ Starred " ++ repo_name])
      else if event_type = "ForkEvent" then
        .ok (g, msgs ++ ["🍴 Forked " ++ repo_name])
      else if event_type = "CreateEvent" then
        match getRefType e with
        | .error err => .error err
        | .ok ref_type =>
          if ref_type = "repository" then
            .ok (g, msgs ++ ["📁 Created a repository " ++ repo_name])
          else
            .ok (bumpGrouped g repo_name event_type, msgs)
      else
        .ok (bumpGrouped g repo_name event_type, msgs)

/-- The whole event loop.  The first raising iteration aborts the loop; the
accumulators built so far survive, because the `try` of line 80 wraps the
entire loop and `grouped_events` / `messages` are mutated in place. -/
def processEvents (filter_type : Option String) :
    List Event → Grouped → List String → Grouped × List String × Option PyErr
  | [], g, msgs => (g, msgs, none)
  | e :: rest, g, msgs =>
    match processEvent filter_type g msgs e with
    | .ok (g2, m2) => processEvents filter_type rest g2 m2
    | .error err => (g, msgs, some err)

/-- The diagnostic string appended by the `except` clauses of lines 104-107:
`KeyError` is caught by the dedicated clause, every other exception by the
generic one. -/
def tryDiagnostic : PyErr → String
  | .keyError k =>
    "[bold red]❌ [Error][/] Missing expected key in response: \x27" ++ k ++ "\x27"
  | .valueError m => "[bold red]❌ [Error][/] processing an event: " ++ m
  | .attributeError m => "[bold red]❌ [Error][/] processing an event: " ++ m
  | .unboundLocalError m => "[bold red]❌ [Error][/] processing an event: " ++ m

/-- The `event_icons` table (lines 109-120), with the literal braces of the
Python `{}` placeholders escaped. -/
def event_icons : List (String × String) :=
  [("CommitCommentEvent", "💬 Commented on a commit"),
   ("DeleteEvent", "🗑 Deleted \x7b\x7d branch"),
   ("IssueCommentEvent", "💬 Commented on \x7b\x7d issue"),
   ("IssuesEvent", "🛠 Opened \x7b\x7d new issue"),
   ("MemberEvent", "👥 Added \x7b\x7d new member"),
   ("PullRequestEvent", "🔃 Opened \x7b\x7d pull request"),
   ("PullRequestReviewEvent", "🔍 Reviewed \x7b\x7d pull request"),
   ("PullRequestReviewCommentEvent", "💬 Commented on \x7b\x7d pull request review"),
   ("PullRequestReviewThreadEvent", "💬 Started a thread in a pull request review"),
   ("PushEvent", "⬆️  Pushed \x7b\x7d commit")]

/-- Lookup in the icon table (`event_type in event_icons`, line 124). -/
def lookupIcon : List (String × String) → String → Option String
  | [], _ => none
  | (k, tmpl) :: rest, et => if et = k then some tmpl else lookupIcon rest et

/-- Replace the first `\x7b\x7d` placeholder with the rendered argument;
a template without a placeholder is returned unchanged — Python's
`str.format` with one positional argument and at most one field. -/
def fmtGo (cs : List Char) (arg : List Char) : List Char :=
  match cs with
  | [] => []
  | [a] => [a]
  | a :: b :: rest =>
    if a == Char.ofNat 123 && b == Char.ofNat 125 then arg ++ rest
    else a :: fmtGo (b :: rest) arg

/-- `event_icons[event_type].format(count)` (line 126). -/
def formatCount (tmpl : String) (count : Nat) : String :=
  ⟨fmtGo tmpl.data (toString count).data⟩

/-- `plural_suffix` (line 125). -/
def pluralSuffix (event_type : String) (count : Nat) : String :=
  if count > 1 ∧ event_type = "DeleteEvent" then "es"
  else if count > 1 then "s"
  else ""

/-- The body of the rendering loop (lines 124-127): `none` for kinds outside
the icon table (no line is emitted), otherwise the formatted template, the
plural suffix and the repository name. -/
def renderLine (repo event_type : String) (count : Nat) : Option String :=
  match lookupIcon event_icons event_type with
  | none => none
  | some tmpl =>
    some (formatCount tmpl count ++ pluralSuffix event_type count
      ++ " to " ++ repo)

/-- The rendering double loop (lines 122-127), repositories and kinds in
table order. -/
def renderGrouped (g : Grouped) : List String :=
  (g.map (fun p => p.2.filterMap (fun q => renderLine p.1 q.1 q.2))).flatten

/-- `display_github_activity` (lines 66-129).  `fmtLocal` stands for the
environment-dependent chain of lines 82-85 (`pytz.utc.localize`,
`tzlocal.get_localzone`, `astimezone`, `strftime`) that renders a parsed UTC
timestamp in the local timezone.  The returned `Except` makes the Python
exception flow explicit: an uncaught exception is `.error`; in particular,
when the `try` block leaves `last_active` unassigned, the final
`return last_active, messages` raises `UnboundLocalError`. -/
def display_github_activity (fmtLocal : DateTime → String)
    (events : List Event) (filter_type : Option String) :
    Except PyErr (Option String × List String) :=
  match events with
  | [] => .ok (none, ["[yellow]No recent activity to display.[/]"])
  | e0 :: _ =>
    match getUser e0 with
    | .error err => .error err
    | .ok _user =>
      let tryOutcome : Option String × Grouped × List String :=
        match getCreatedAt e0 with
        | .error err => (none, [], [tryDiagnostic err])
        | .ok ca =>
          match strptimeIso ca with
          | none =>
            (none, [], [tryDiagnostic (.valueError
              ("time data \x27" ++ ca
                ++ "\x27 does not match format \x27%Y-%m-%dT%H:%M:%SZ\x27"))])
          | some dt =>
            let last_active := fmtLocal dt
            match processEvents filter_type events [] [] with
            | (g, ms, none) => (some last_active, g, ms)
            | (g, ms, some err) => (some last_active, g, ms ++ [tryDiagnostic err])
      match tryOutcome with
      | (some last_active, g, msgs) => .ok (some last_active, msgs ++ renderGrouped g)
      | (none, _, _) => .error (.unboundLocalError "last_active")



/-- Substring test modelling Python's `in` on `str`: `strContains s sub` is
`sub in s`. -/
def strContains (s sub : String) : Bool :=
  charsContains sub.data s.data

/-- Suffix test: `strEndsWith s t` is Python's `s.endswith(t)`. -/
def strEndsWith (s t : String) : Bool :=
  charsPrefixOf t.data.reverse s.data.reverse

/-- The template an icon-table kind maps to. -/
def iconTemplate (k : String) : String :=
  (lookupIcon event_icons k).getD ""

/-- The ten kinds of the icon table, in table order. -/
def recognizedKinds : List String :=
  event_icons.map Prod.fst

/-- A fixed stand-in for the timezone-localising formatter of lines 82-85,
used by the concrete evaluations. -/
def fmtX : DateTime → String := fun _ => "LOCALTIME"

/-- A well-formed star event record on repository `r`. -/
def watchD (r : String) : EventDict :=
  ⟨some (some "mia"), some "2024-01-01T12:00:00Z", some "WatchEvent",
    some (some r), none⟩

/-- A well-formed star event on repository `r`. -/
def watchE (r : String) : Event := .dict (watchD r)

/-- A well-formed push event record on repository `a/b`. -/
def pushD : EventDict :=
  ⟨some (some "mia"), some "2024-01-01T12:00:00Z", some "PushEvent",
    some (some "a/b"), none⟩

/-- A well-formed push event on repository `a/b`. -/
def pushE : Event := .dict pushD

/-- A push event whose `created_at` does not parse. -/
def badDateE : Event :=
  .dict ⟨some (some "mia"), some "not-a-date", some "PushEvent",
    some (some "a/b"), none⟩

/-- A star event whose `actor` field is absent. -/
def noActorE : Event :=
  .dict ⟨none, some "2024-01-01T12:00:00Z", some "WatchEvent",
    some (some "x/y"), none⟩

/-- A star event whose `created_at` field is absent. -/
def noCreatedAtE : Event :=
  .dict ⟨some (some "mia"), none, some "WatchEvent", some (some "x/y"), none⟩

/-- An event whose `type` and `repo` fields are both absent. -/
def noTypeNoRepoE : Event :=
  .dict ⟨some (some "mia"), some "2024-01-01T12:00:00Z", none, none, none⟩

/-- The special message (if any) that one event record emits, following the
branch structure of lines 91-100: `none` both for filtered-out events and for
events that fall through to the grouped branch. -/
def specialMsgOf (filter_type : Option String) (d : EventDict) : Option String :=
  let event_type := d.type.getD "UnknownEvent"
  let repo_name := (d.repo.getD none).getD "UnknownRepo"
  if skipByFilter filter_type event_type then none
  else if event_type = "WatchEvent" then some ("⭐ Starred " ++ repo_name)
  else if event_type = "ForkEvent" then some ("🍴 Forked " ++ repo_name)
  else if event_type = "CreateEvent" then
    if (d.payload.getD none).getD "UnknownRefType" = "repository" then
      some ("📁 Created a repository " ++ repo_name)
    else none
  else none

/-- The (repository, kind) pair an event record contributes to the grouped
counts; `none` for filtered-out and special events. -/
def groupedPair (filter_type : Option String) (d : EventDict) :
    Option (String × String) :=
  let event_type := d.type.getD "UnknownEvent"
  let repo_name := (d.repo.getD none).getD "UnknownRepo"
  if skipByFilter filter_type event_type then none
  else if event_type = "WatchEvent" then none
  else if event_type = "ForkEvent" then none
  else if event_type = "CreateEvent" then
    if (d.payload.getD none).getD "UnknownRefType" = "repository" then none
    else some (repo_name, event_type)
  else some (repo_name, event_type)

/-- The special messages of a record sequence, in emission order. -/
def emittedSpecials (filter_type : Option String) (ds : List EventDict) :
    List String :=
  ds.filterMap (specialMsgOf filter_type)

/-- The grouped (repository, kind) contributions, in input order. -/
def groupedPairs (filter_type : Option String) (ds : List EventDict) :
    List (String × String) :=
  ds.filterMap (groupedPair filter_type)

/-- Accumulate a first-occurrence list. -/
def seenInsert (acc : List String) (x : String) : List String :=
  if x ∈ acc then acc else acc ++ [x]

/-- The distinct elements of a list, in first-occurrence order. -/
def firstSeen (xs : List String) : List String :=
  xs.foldl seenInsert []

/-- Number of occurrences of the pair `(r, k)`. -/
def countPair (ps : List (String × String)) (r k : String) : Nat :=
  (ps.filter (fun p => p.1 = r ∧ p.2 = k)).length

/-- The kinds recorded for repository `r`, in input order. -/
def kindsOf (ps : List (String × String)) (r : String) : List String :=
  (ps.filter (fun p => p.1 = r)).map Prod.snd

/-- Insertion-ordered grouping stated directly: repositories in first-seen
order, kinds within a repository in first-seen order, each kind with its
occurrence count.  The ordering claim for the grouped output is that the
`defaultdict` fold of the source equals this. -/
def groupSpec (ps : List (String × String)) : Grouped :=
  (firstSeen (ps.map Prod.fst)).map
    (fun r => (r, (firstSeen (kindsOf ps r)).map
      (fun k => (k, countPair ps r k))))

/-- One grouped-count step, as folded by the event loop. -/
def stepBump (g : Grouped) (p : String × String) : Grouped :=
  bumpGrouped g p.1 p.2

/-- The filter check of line 91 in isolation: `true` when the event would be
processed under filter `f`. -/
def eventMatches (f : String) : Event → Bool
  | .dict d => !(skipByFilter (some f) (d.type.getD "UnknownEvent"))
  | .nonDict => false

/-- Auxiliary: removal never grows the table. -/
theorem removeKey_length_le (st : CacheState) (u : String) :
    (removeKey st u).length ≤ st.length := by
  induction st with
  | nil => exact Nat.le_refl 0
  | cons p rest ih =>
    obtain ⟨k, w⟩ := p
    by_cases hk : k = u
    · simp only [removeKey, if_pos hk, List.length_cons]
      exact Nat.le_succ_of_le ih
    · simp only [removeKey, if_neg hk, List.length_cons]
      exact Nat.succ_le_succ ih

/-- Auxiliary: a successful lookup strictly shrinks the table on removal. -/
theorem removeKey_length_lt (st : CacheState) (u : String)
    (v : Option (List Event)) (h : cacheLookup st u = some v) :
    (removeKey st u).length < st.length := by
  induction st with
  | nil => simp [cacheLookup] at h
  | cons p rest ih =>
    obtain ⟨k, w⟩ := p
    by_cases hk : u = k
    · simp only [removeKey, if_pos hk.symm, List.length_cons]
      exact Nat.lt_succ_of_le (removeKey_length_le rest u)
    · simp only [cacheLookup, if_neg hk] at h
      simp only [removeKey, if_neg (Ne.symm hk), List.length_cons]
      exact Nat.succ_lt_succ (ih h)

/-- Claim C1: the claim says an error outcome leaves no cache entry, so a
subsequent get for the same username invokes the network again.  On the code
this fails: `lru_cache` memoises the `None` returned by the error branches,
so after a 404 the entry `("mia", none)` exists and the second call is a hit
that performs no network call. -/
theorem fetch_error_outcome_is_cached :
    (fetch_github_activity net404 [] "mia").1 = none
    ∧ (fetch_github_activity net404 [] "mia").2.1 = [("mia", none)]
    ∧ (fetch_github_activity net404 [] "mia").2.2 = true
    ∧ (fetch_github_activity net404 [("mia", none)] "mia").2.2 = false
    ∧ (fetch_github_activity net404 [("mia", none)] "mia").1 = none :=
  ⟨rfl, rfl, rfl, rfl, rfl⟩

/-- Claim C8: for every network collaborator, cache state and username, a
second consecutive get returns exactly the data of the first and performs no
network call — the first call (hit or miss) leaves the entry at the
most-recently-used position, so the second is always a hit. -/
theorem cache_get_idempotent (net : String → FetchOutcome) (st : CacheState)
    (u : String) :
    (fetch_github_activity net (fetch_github_activity net st u).2.1 u).1
        = (fetch_github_activity net st u).1
    ∧ (fetch_github_activity net (fetch_github_activity net st u).2.1 u).2.2
        = false := by
  cases h : cacheLookup st u with
  | some v =>
    simp [fetch_github_activity, h, cacheLookup]
  | none =>
    have htake : ((u, fetch_github_activity_body net u) :: st).take 10
        = (u, fetch_github_activity_body net u) :: st.take 9 := rfl
    simp [fetch_github_activity, h, htake, cacheLookup]

/-- Claim C7: the cache is bounded by 10 entries, and eviction is strict
LRU.  First conjunct: a get from a table of at most 10 entries yields a
table of at most 10 entries.  Remaining conjuncts: after filling the cache
with `u01`…`u10`, touching `u01` and then looking up the fresh `u11`, the
least-recently-used `u02` is evicted (its next get calls the network) while
the touched `u01` survives; without the touch, `u01` itself is evicted. -/
theorem cache_lru_bound_and_eviction :
    (∀ (net : String → FetchOutcome) (st : CacheState) (u : String),
        st.length ≤ 10 → ((fetch_github_activity net st u).2.1).length ≤ 10)
    ∧ (cacheLookup
        ((fetch_github_activity netAll
          ((fetch_github_activity netAll (fillCache netAll tenUsers [])
            "u01").2.1) "u11").2.1) "u02" = none)
    ∧ ((cacheLookup
        ((fetch_github_activity netAll
          ((fetch_github_activity netAll (fillCache netAll tenUsers [])
            "u01").2.1) "u11").2.1) "u01").isSome = true)
    ∧ ((fetch_github_activity netAll
        ((fetch_github_activity netAll
          ((fetch_github_activity netAll (fillCache netAll tenUsers [])
            "u01").2.1) "u11").2.1) "u02").2.2 = true)
    ∧ (cacheLookup
        ((fetch_github_activity netAll (fillCache netAll tenUsers [])
          "u11").2.1) "u01" = none) := by
  refine ⟨?_, rfl, rfl, rfl, rfl⟩
  intro net st u hlen
  cases h : cacheLookup st u with
  | some v =>
    simp only [fetch_github_activity, h, List.length_cons]
    exact Nat.succ_le_of_lt
      (Nat.lt_of_lt_of_le (removeKey_length_lt st u v h) hlen)
  | none =>
    simp only [fetch_github_activity, h]
    calc (((u, fetch_github_activity_body net u) :: st).take 10).length
        ≤ 10 := by
          rw [List.length_take]
          exact Nat.min_le_left 10 _

/-- Witness for C7 at a concrete input: a get on the empty table keeps the
table within the capacity bound. -/
theorem cache_lru_bound_and_eviction_witness :
    ((fetch_github_activity net404 [] "mia").2.1).length ≤ 10 :=
  cache_lru_bound_and_eviction.1 net404 [] "mia" (by decide)



/-- Auxiliary: a list is a prefix of itself followed by anything. -/
theorem charsPrefixOf_self_append (l t : List Char) :
    charsPrefixOf l (l ++ t) = true := by
  induction l with
  | nil => rfl
  | cons a as ih => simp [charsPrefixOf, ih]

/-- Auxiliary: the empty list occurs in every list. -/
theorem charsContains_nil (l : List Char) :
    charsContains [] l = true := by
  cases l with
  | nil => rfl
  | cons a as => rfl

/-- Auxiliary: a contiguous occurrence makes `charsContains` true. -/
theorem charsContains_of_infix (pre sub post : List Char) :
    charsContains sub (pre ++ sub ++ post) = true := by
  induction pre with
  | nil =>
    cases sub with
    | nil => simpa using charsContains_nil post
    | cons c cs =>
      show charsContains (c :: cs) ((c :: cs) ++ post) = true
      simp only [charsContains, Bool.or_eq_true]
      exact Or.inl (charsPrefixOf_self_append (c :: cs) post)
  | cons p ps ih =>
    show charsContains sub (p :: (ps ++ sub ++ post)) = true
    cases hmatch : ps ++ sub ++ post with
    | nil =>
      rcases List.append_eq_nil.mp (List.append_eq_nil.mp hmatch).1 with ⟨-, h2⟩
      subst h2
      simpa using charsContains_nil [p]
    | cons b bs =>
      rw [← hmatch]
      simp only [charsContains, Bool.or_eq_true]
      exact Or.inr ih

/-- Claim C2: the claim says an unparsable timestamp on the first event is
non-fatal — a diagnostic is recorded, all events are still processed and the
function returns normally.  On the code this fails: the `try` of line 80
wraps the whole event loop, so the `ValueError` from `strptime` skips every
event, and `last_active` is never assigned, so the `return` of line 129
raises `UnboundLocalError` to the caller. -/
theorem display_unparsable_timestamp_raises :
    display_github_activity fmtX [badDateE] none
      = .error (.unboundLocalError "last_active")
    ∧ display_github_activity fmtX [badDateE, watchE "r1"] none
      = .error (.unboundLocalError "last_active") :=
  ⟨rfl, rfl⟩

/-- Claim C9: the claim says every absent field is replaced by a default, so
the aggregation never raises.  On the code this fails for the `actor` field:
`events[0].get("actor","")` defaults to the string `""`, and the chained
`.get("login", ...)` then raises `AttributeError`.  An absent `created_at`
likewise ends in an uncaught `UnboundLocalError`.  Only `type`, `repo` and
`payload` are defaulted as claimed (third conjunct: such an event is
aggregated under the defaults and the call returns normally). -/
theorem display_missing_actor_raises :
    display_github_activity fmtX [noActorE] none
      = .error (.attributeError "str object has no attribute get")
    ∧ display_github_activity fmtX [noCreatedAtE] none
      = .error (.unboundLocalError "last_active")
    ∧ display_github_activity fmtX [noTypeNoRepoE] none
      = .ok (some "LOCALTIME", []) :=
  ⟨rfl, rfl, rfl⟩

/-- Claim C3, counterexample: a malformed event that raises during the loop
(here a non-mapping list element between two valid star events) does append
one diagnostic, but the loop is aborted: the valid event after it produces
no output, contradicting the claim that all valid events are still
rendered. -/
theorem display_malformed_event_drops_rest :
    display_github_activity fmtX [watchE "r1", .nonDict, watchE "r2"] none
      = .ok (some "LOCALTIME",
          ["⭐ Starred r1",
           "[bold red]❌ [Error][/] processing an event: list element has no attribute get"])
    ∧ ("⭐ Starred r2" ∉
        ["⭐ Starred r1",
         "[bold red]❌ [Error][/] processing an event: list element has no attribute get"]) :=
  ⟨rfl, by decide⟩

/-- Claim C10, counterexample: the `CommitCommentEvent` template contains no
count placeholder, so rendering it with count 2 produces a message that does
not display the count (and the blind plural suffix lands on the word
`commit`). -/
theorem commitComment_count_not_rendered :
    renderLine "a/b" "CommitCommentEvent" 2
      = some "💬 Commented on a commits to a/b"
    ∧ strContains "💬 Commented on a commits to a/b" "2" = false
    ∧ strContains (iconTemplate "CommitCommentEvent") "\x7b\x7d" = false :=
  ⟨rfl, rfl, rfl⟩

/-- Claim C10, amended: eight of the ten recognized kinds map to templates
with a count placeholder and interpolation inserts the count there (so the
count is displayed); the `CommitCommentEvent` and
`PullRequestReviewThreadEvent` templates contain no placeholder and render
unchanged, without the count. -/
theorem icon_templates_count_interpolation :
    (∀ c : Nat,
      formatCount (iconTemplate "DeleteEvent") c
          = "🗑 Deleted " ++ toString c ++ " branch"
      ∧ formatCount (iconTemplate "IssueCommentEvent") c
          = "💬 Commented on " ++ toString c ++ " issue"
      ∧ formatCount (iconTemplate "IssuesEvent") c
          = "🛠 Opened " ++ toString c ++ " new issue"
      ∧ formatCount (iconTemplate "MemberEvent") c
          = "👥 Added " ++ toString c ++ " new member"
      ∧ formatCount (iconTemplate "PullRequestEvent") c
          = "🔃 Opened " ++ toString c ++ " pull request"
      ∧ formatCount (iconTemplate "PullRequestReviewEvent") c
          = "🔍 Reviewed " ++ toString c ++ " pull request"
      ∧ formatCount (iconTemplate "PullRequestReviewCommentEvent") c
          = "💬 Commented on " ++ toString c ++ " pull request review"
      ∧ formatCount (iconTemplate "PushEvent") c
          = "⬆️  Pushed " ++ toString c ++ " commit"
      ∧ formatCount (iconTemplate "CommitCommentEvent") c
          = iconTemplate "CommitCommentEvent"
      ∧ formatCount (iconTemplate "PullRequestReviewThreadEvent") c
          = iconTemplate "PullRequestReviewThreadEvent")
    ∧ (∀ c : Nat,
      strContains (formatCount (iconTemplate "PushEvent") c) (toString c) = true
      ∧ strContains (formatCount (iconTemplate "DeleteEvent") c) (toString c) = true)
    ∧ (∀ k tmpl, (k, tmpl) ∈ event_icons → k ≠ "CommitCommentEvent"
        → k ≠ "PullRequestReviewThreadEvent"
        → strContains tmpl "\x7b\x7d" = true) := by
  refine ⟨fun c => ⟨rfl, rfl, rfl, rfl, rfl, rfl, rfl, rfl, rfl, rfl⟩, fun c => ⟨?_, ?_⟩, ?_⟩
  · show charsContains (toString c).data
      (("⬆️  Pushed " ++ toString c ++ " commit").data) = true
    rw [String.data_append, String.data_append]
    exact charsContains_of_infix _ _ _
  · show charsContains (toString c).data
      (("🗑 Deleted " ++ toString c ++ " branch").data) = true
    rw [String.data_append, String.data_append]
    exact charsContains_of_infix _ _ _
  · intro k tmpl h hk1 hk2
    have hall : ∀ p ∈ event_icons, p.1 ≠ "CommitCommentEvent"
        → p.1 ≠ "PullRequestReviewThreadEvent"
        → strContains p.2 "\x7b\x7d" = true := by decide
    exact hall (k, tmpl) h hk1 hk2

/-- Witness for the amended C10 at a concrete input: the `PushEvent`
template carries a placeholder and interpolates the count 3. -/
theorem icon_templates_count_interpolation_witness :
    formatCount (iconTemplate "PushEvent") 3
      = "⬆️  Pushed " ++ toString 3 ++ " commit"
    ∧ strContains "⬆️  Pushed \x7b\x7d commit" "\x7b\x7d" = true :=
  ⟨(icon_templates_count_interpolation.1 3).2.2.2.2.2.2.2.1,
   icon_templates_count_interpolation.2.2 "PushEvent"
     "⬆️  Pushed \x7b\x7d commit" (by decide) (by decide) (by decide)⟩

/-- Claim C5: for every repository and recognized kind, rendering with count
1 appends no plural suffix (and the count-1 message does not end in `s`);
with count above 1 the `DeleteEvent` kind gets the suffix `es` and every
other recognized kind gets `s`. -/
theorem renderLine_plural_suffix (repo k : String)
    (hk : k ∈ recognizedKinds) :
    renderLine repo k 1
        = some (formatCount (iconTemplate k) 1 ++ " to " ++ repo)
    ∧ strEndsWith (formatCount (iconTemplate k) 1) "s" = false
    ∧ (∀ c, 1 < c → renderLine repo "DeleteEvent" c
        = some (formatCount (iconTemplate "DeleteEvent") c ++ "es" ++ " to " ++ repo))
    ∧ (∀ c, 1 < c → k ≠ "DeleteEvent" → renderLine repo k c
        = some (formatCount (iconTemplate k) c ++ "s" ++ " to " ++ repo)) := by
  have hdel : ∀ c : Nat, 1 < c → renderLine repo "DeleteEvent" c
      = some (formatCount (iconTemplate "DeleteEvent") c ++ "es" ++ " to " ++ repo) := by
    intro c hc
    simp +decide [renderLine, lookupIcon, event_icons, pluralSuffix,
      iconTemplate, hc]
  simp only [recognizedKinds, event_icons, List.map, List.mem_cons,
    List.not_mem_nil, or_false] at hk
  rcases hk with rfl | rfl | rfl | rfl | rfl | rfl | rfl | rfl | rfl | rfl
  all_goals refine ⟨rfl, by decide, hdel, ?_⟩
  all_goals intro c hc hne
  all_goals first
    | exact absurd rfl hne
    | simp +decide [renderLine, lookupIcon, event_icons, pluralSuffix,
        iconTemplate, hc]

/-- Witness for C5 at a concrete input: the `PushEvent` kind with counts 1
and 2. -/
theorem renderLine_plural_suffix_witness :
    renderLine "a/b" "PushEvent" 1
        = some (formatCount (iconTemplate "PushEvent") 1 ++ " to " ++ "a/b")
    ∧ renderLine "a/b" "PushEvent" 2
        = some (formatCount (iconTemplate "PushEvent") 2 ++ "s" ++ " to " ++ "a/b") :=
  ⟨(renderLine_plural_suffix "a/b" "PushEvent" (by decide)).1,
   (renderLine_plural_suffix "a/b" "PushEvent" (by decide)).2.2.2 2
     (by decide) (by decide)⟩

/-- Auxiliary: one loop iteration on a mapping record never raises and acts
as `specialMsgOf` on the message list and `groupedPair` on the counts. -/
theorem processEvent_dict (filter_type : Option String) (g : Grouped)
    (msgs : List String) (d : EventDict) :
    processEvent filter_type g msgs (.dict d)
      = .ok (match groupedPair filter_type d with
             | some p => bumpGrouped g p.1 p.2
             | none => g,
            msgs ++ (specialMsgOf filter_type d).toList) := by
  by_cases h1 : skipByFilter filter_type (d.type.getD "UnknownEvent") = true
  · simp [processEvent, getType, getRepoName, getRefType, specialMsgOf,
      groupedPair, h1]
  · by_cases h2 : d.type.getD "UnknownEvent" = "WatchEvent"
    · rw [h2] at h1
      simp [processEvent, getType, getRepoName, getRefType, specialMsgOf,
        groupedPair, h1, h2]
    · by_cases h3 : d.type.getD "UnknownEvent" = "ForkEvent"
      · rw [h3] at h1
        simp [processEvent, getType, getRepoName, getRefType, specialMsgOf,
          groupedPair, h1, h2, h3]
      · by_cases h4 : d.type.getD "UnknownEvent" = "CreateEvent"
        · rw [h4] at h1
          by_cases h5 : (d.payload.getD none).getD "UnknownRefType" = "repository"
          · simp [processEvent, getType, getRepoName, getRefType, specialMsgOf,
              groupedPair, h1, h2, h3, h4, h5]
          · simp [processEvent, getType, getRepoName, getRefType, specialMsgOf,
              groupedPair, h1, h2, h3, h4, h5]
        · simp [processEvent, getType, getRepoName, getRefType, specialMsgOf,
            groupedPair, h1, h2, h3, h4]

/-- Auxiliary: a non-mapping list element raises at its first `.get`. -/
theorem processEvent_nonDict (filter_type : Option String) (g : Grouped)
    (msgs : List String) :
    processEvent filter_type g msgs .nonDict
      = .error (.attributeError "list element has no attribute get") := rfl

/-- Auxiliary: on a list of mapping records the loop never raises; the final
message list extends the accumulator with the special messages in emission
order and the final counts fold the grouped contributions in input order. -/
theorem processEvents_dicts (filter_type : Option String) (ds : List EventDict) :
    ∀ (g : Grouped) (msgs : List String),
    processEvents filter_type (ds.map Event.dict) g msgs
      = (List.foldl stepBump g (groupedPairs filter_type ds),
         msgs ++ emittedSpecials filter_type ds, none) := by
  induction ds with
  | nil =>
    intro g msgs
    simp [processEvents, groupedPairs, emittedSpecials]
  | cons d rest ih =>
    intro g msgs
    simp only [List.map_cons, processEvents, processEvent_dict]
    cases hp : groupedPair filter_type d <;>
      cases hs : specialMsgOf filter_type d <;>
        simp [ih, groupedPairs, emittedSpecials, stepBump, hp, hs,
          List.filterMap_cons]

/-- Auxiliary: the loop runs left to right and stops at the first raising
element. -/
theorem processEvents_append (filter_type : Option String)
    (l1 l2 : List Event) :
    ∀ (g : Grouped) (msgs : List String),
    processEvents filter_type (l1 ++ l2) g msgs
      = match processEvents filter_type l1 g msgs with
        | (g2, m2, none) => processEvents filter_type l2 g2 m2
        | (g2, m2, some err) => (g2, m2, some err) := by
  induction l1 with
  | nil =>
    intro g msgs
    simp [processEvents]
  | cons e rest ih =>
    intro g msgs
    simp only [List.cons_append, processEvents]
    cases h : processEvent filter_type g msgs e with
    | ok p =>
      obtain ⟨g2, m2⟩ := p
      simp [ih]
    | error err => simp

/-- Auxiliary: membership through the first-seen fold. -/
theorem mem_foldl_seenInsert (xs : List String) :
    ∀ (acc : List String) (y : String),
    y ∈ xs.foldl seenInsert acc ↔ y ∈ acc ∨ y ∈ xs := by
  induction xs with
  | nil =>
    intro acc y
    simp
  | cons x rest ih =>
    intro acc y
    simp only [List.foldl_cons, seenInsert]
    by_cases hx : x ∈ acc
    · rw [if_pos hx, ih]
      simp only [List.mem_cons]
      constructor
      · rintro (h | h)
        · exact Or.inl h
        · exact Or.inr (Or.inr h)
      · rintro (h | rfl | h)
        · exact Or.inl h
        · exact Or.inl hx
        · exact Or.inr h
    · rw [if_neg hx, ih]
      simp only [List.mem_append, List.mem_singleton, List.mem_cons]
      tauto

/-- Auxiliary: `firstSeen` has the same elements as its input. -/
theorem mem_firstSeen (xs : List String) (y : String) :
    y ∈ firstSeen xs ↔ y ∈ xs := by
  unfold firstSeen
  rw [mem_foldl_seenInsert]
  simp

/-- Auxiliary: the first-seen fold preserves freedom from duplicates. -/
theorem nodup_foldl_seenInsert (xs : List String) :
    ∀ acc : List String, acc.Nodup → (xs.foldl seenInsert acc).Nodup := by
  induction xs with
  | nil =>
    intro acc h
    exact h
  | cons x rest ih =>
    intro acc h
    simp only [List.foldl_cons, seenInsert]
    by_cases hx : x ∈ acc
    · rw [if_pos hx]
      exact ih acc h
    · rw [if_neg hx]
      refine ih _ ?_
      rw [List.nodup_append]
      refine ⟨h, List.nodup_singleton x, ?_⟩
      intro a ha hax
      rw [List.mem_singleton] at hax
      exact hx (hax ▸ ha)

/-- Auxiliary: `firstSeen` never repeats an element. -/
theorem nodup_firstSeen (xs : List String) : (firstSeen xs).Nodup :=
  nodup_foldl_seenInsert xs [] List.nodup_nil

/-- Auxiliary: extending the input by one element. -/
theorem firstSeen_append_singleton (xs : List String) (x : String) :
    firstSeen (xs ++ [x])
      = if x ∈ xs then firstSeen xs else firstSeen xs ++ [x] := by
  have h1 : firstSeen (xs ++ [x]) = seenInsert (firstSeen xs) x := by
    unfold firstSeen
    rw [List.foldl_append, List.foldl_cons, List.foldl_nil]
  rw [h1]
  unfold seenInsert
  by_cases hx : x ∈ xs
  · rw [if_pos ((mem_firstSeen xs x).mpr hx), if_pos hx]
  · rw [if_neg (fun hmem => hx ((mem_firstSeen xs x).mp hmem)), if_neg hx]

/-- Auxiliary: bumping an unseen repository appends a fresh bucket. -/
theorem bumpGrouped_notMem (r k : String) :
    ∀ g : Grouped, r ∉ g.map Prod.fst
      → bumpGrouped g r k = g ++ [(r, [(k, 1)])] := by
  intro g
  induction g with
  | nil =>
    intro _
    rfl
  | cons p rest ih =>
    intro h
    obtain ⟨r0, inner⟩ := p
    simp only [List.map_cons, List.mem_cons, not_or] at h
    simp only [bumpGrouped, if_neg (Ne.symm h.1), List.cons_append]
    rw [ih h.2]

/-- Auxiliary: bumping an unseen kind appends a fresh count. -/
theorem bumpInner_notMem (k : String) :
    ∀ l : List (String × Nat), k ∉ l.map Prod.fst
      → bumpInner l k = l ++ [(k, 1)] := by
  intro l
  induction l with
  | nil =>
    intro _
    rfl
  | cons p rest ih =>
    intro h
    obtain ⟨k0, c⟩ := p
    simp only [List.map_cons, List.mem_cons, not_or] at h
    simp only [bumpInner, if_neg (Ne.symm h.1), List.cons_append]
    rw [ih h.2]

/-- Auxiliary: bumping a seen kind in a duplicate-free keyed list increments
exactly that key. -/
theorem bumpInner_map (k : String) :
    ∀ (rs : List String) (f : String → Nat), rs.Nodup → k ∈ rs →
    bumpInner (rs.map fun x => (x, f x)) k
      = rs.map (fun x => (x, if x = k then f x + 1 else f x)) := by
  intro rs
  induction rs with
  | nil =>
    intro f _ hk
    simp at hk
  | cons a as ih =>
    intro f hnd hk
    by_cases ha : a = k
    · subst ha
      simp only [List.map_cons, bumpInner, eq_self_iff_true, if_true]
      congr 1
      refine List.map_congr_left ?_
      intro x hx
      have hxa : ¬x = a := fun hxa => (List.nodup_cons.mp hnd).1 (hxa ▸ hx)
      rw [if_neg hxa]
    · have hk2 : k ∈ as := by
        rcases List.mem_cons.mp hk with h | h
        · exact absurd h.symm ha
        · exact h
      simp only [List.map_cons, bumpInner, if_neg ha]
      rw [ih f (List.nodup_cons.mp hnd).2 hk2]

/-- Auxiliary: bumping a seen repository in a duplicate-free keyed list
updates exactly that bucket. -/
theorem bumpGrouped_map (r k : String) :
    ∀ (rs : List String) (F : String → List (String × Nat)),
    rs.Nodup → r ∈ rs →
    bumpGrouped (rs.map fun x => (x, F x)) r k
      = rs.map (fun x => (x, if x = r then bumpInner (F x) k else F x)) := by
  intro rs
  induction rs with
  | nil =>
    intro F _ hr
    simp at hr
  | cons a as ih =>
    intro F hnd hr
    by_cases ha : a = r
    · subst ha
      simp only [List.map_cons, bumpGrouped, eq_self_iff_true, if_true]
      congr 1
      refine List.map_congr_left ?_
      intro x hx
      have hxa : ¬x = a := fun hxa => (List.nodup_cons.mp hnd).1 (hxa ▸ hx)
      rw [if_neg hxa]
    · have hr2 : r ∈ as := by
        rcases List.mem_cons.mp hr with h | h
        · exact absurd h.symm ha
        · exact h
      simp only [List.map_cons, bumpGrouped, if_neg ha]
      rw [ih F (List.nodup_cons.mp hnd).2 hr2]

/-- Auxiliary: appending one pair adjusts exactly one count. -/
theorem countPair_append_singleton (ps : List (String × String))
    (r k x y : String) :
    countPair (ps ++ [(r, k)]) x y
      = countPair ps x y + (if r = x ∧ k = y then 1 else 0) := by
  unfold countPair
  rw [List.filter_append, List.length_append]
  congr 1
  by_cases h1 : r = x <;> by_cases h2 : k = y <;>
    simp [List.filter_cons, h1, h2]

/-- Auxiliary: appending one pair extends exactly one repository's kinds. -/
theorem kindsOf_append_singleton (ps : List (String × String)) (r k x : String) :
    kindsOf (ps ++ [(r, k)]) x
      = kindsOf ps x ++ (if r = x then [k] else []) := by
  unfold kindsOf
  rw [List.filter_append, List.map_append]
  congr 1
  by_cases h : r = x <;> simp [List.filter_cons, h]

/-- Auxiliary: a repository absent from the pairs has no kinds. -/
theorem kindsOf_eq_nil (ps : List (String × String)) (r : String)
    (hr : r ∉ ps.map Prod.fst) : kindsOf ps r = [] := by
  unfold kindsOf
  rw [List.map_eq_nil_iff]
  rw [List.filter_eq_nil_iff]
  intro p hp
  simp only [decide_eq_true_eq]
  intro h1
  exact hr (List.mem_map.mpr ⟨p, hp, h1⟩)

/-- Auxiliary: membership in a repository's kind list. -/
theorem mem_kindsOf (ps : List (String × String)) (r k : String) :
    k ∈ kindsOf ps r ↔ ∃ p ∈ ps, p.1 = r ∧ p.2 = k := by
  unfold kindsOf
  simp only [List.mem_map, List.mem_filter, decide_eq_true_eq]
  constructor
  · rintro ⟨p, ⟨hp, h1⟩, h2⟩
    exact ⟨p, hp, h1, h2⟩
  · rintro ⟨p, hp, h1, h2⟩
    exact ⟨p, ⟨hp, h1⟩, h2⟩

/-- Auxiliary: an unrecorded kind has count 0. -/
theorem countPair_eq_zero (ps : List (String × String)) (r k : String)
    (h : k ∉ kindsOf ps r) : countPair ps r k = 0 := by
  unfold countPair
  rw [List.length_eq_zero, List.filter_eq_nil_iff]
  intro p hp
  simp only [decide_eq_true_eq, not_and]
  intro h1 h2
  exact h ((mem_kindsOf ps r k).mpr ⟨p, hp, h1, h2⟩)

/-- Auxiliary: the repository keys of the grouped structure. -/
theorem groupSpec_keys (ps : List (String × String)) :
    (groupSpec ps).map Prod.fst = firstSeen (ps.map Prod.fst) := by
  unfold groupSpec
  rw [List.map_map]
  exact List.map_id' _

/-- Auxiliary: one grouped-count bump extends the insertion-ordered
grouping by one pair. -/
theorem groupSpec_snoc (ps : List (String × String)) (r k : String) :
    bumpGrouped (groupSpec ps) r k = groupSpec (ps ++ [(r, k)]) := by
  have hmapfst : (ps ++ [(r, k)]).map Prod.fst = ps.map Prod.fst ++ [r] := by
    rw [List.map_append]
    rfl
  by_cases hr : r ∈ ps.map Prod.fst
  · -- the repository already has a bucket
    have hrs : r ∈ firstSeen (ps.map Prod.fst) := (mem_firstSeen _ _).mpr hr
    have hnd := nodup_firstSeen (ps.map Prod.fst)
    have hfs : firstSeen ((ps ++ [(r, k)]).map Prod.fst)
        = firstSeen (ps.map Prod.fst) := by
      rw [hmapfst, firstSeen_append_singleton, if_pos hr]
    unfold groupSpec
    rw [hfs]
    rw [bumpGrouped_map r k (firstSeen (ps.map Prod.fst))
      (fun x => (firstSeen (kindsOf ps x)).map (fun y => (y, countPair ps x y)))
      hnd hrs]
    refine List.map_congr_left ?_
    intro x hx
    by_cases hxr : x = r
    · subst hxr
      rw [if_pos rfl]
      show (x, _) = (x, _)
      congr 1
      rw [kindsOf_append_singleton, if_pos rfl]
      by_cases hkk : k ∈ kindsOf ps x
      · -- the kind is already recorded for this repository
        rw [firstSeen_append_singleton, if_pos hkk]
        rw [bumpInner_map k (firstSeen (kindsOf ps x))
          (fun y => countPair ps x y) (nodup_firstSeen _)
          ((mem_firstSeen _ _).mpr hkk)]
        refine List.map_congr_left ?_
        intro y hy
        by_cases hyk : y = k
        · subst hyk
          rw [if_pos rfl, countPair_append_singleton, if_pos ⟨rfl, rfl⟩]
        · rw [if_neg hyk, countPair_append_singleton,
            if_neg (fun hc => hyk hc.2.symm), Nat.add_zero]
      · -- the kind is new for this repository
        rw [firstSeen_append_singleton, if_neg hkk]
        rw [bumpInner_notMem k _ (by
          rw [List.map_map]
          show k ∉ List.map (fun y => y) (firstSeen (kindsOf ps x))
          rw [List.map_id']
          intro hmem
          exact hkk ((mem_firstSeen _ _).mp hmem))]
        rw [List.map_append]
        congr 1
        · refine List.map_congr_left ?_
          intro y hy
          have hyk : ¬(k = y) := fun hky =>
            hkk (hky ▸ (mem_firstSeen _ _).mp hy)
          rw [countPair_append_singleton, if_neg (fun hc => hyk hc.2),
            Nat.add_zero]
        · show [(k, 1)] = [(k, countPair (ps ++ [(x, k)]) x k)]
          rw [countPair_append_singleton, if_pos ⟨rfl, rfl⟩,
            countPair_eq_zero ps x k hkk]
    · rw [if_neg hxr]
      show (x, _) = (x, _)
      congr 1
      rw [kindsOf_append_singleton, if_neg (fun hrx => hxr hrx.symm),
        List.append_nil]
      refine List.map_congr_left ?_
      intro y hy
      rw [countPair_append_singleton, if_neg (fun hc => hxr hc.1.symm),
        Nat.add_zero]
  · -- a new repository: a fresh bucket is appended
    have hfs : firstSeen ((ps ++ [(r, k)]).map Prod.fst)
        = firstSeen (ps.map Prod.fst) ++ [r] := by
      rw [hmapfst, firstSeen_append_singleton, if_neg hr]
    have hbump : bumpGrouped (groupSpec ps) r k
        = groupSpec ps ++ [(r, [(k, 1)])] := by
      refine bumpGrouped_notMem r k (groupSpec ps) ?_
      rw [groupSpec_keys]
      intro hmem
      exact hr ((mem_firstSeen _ _).mp hmem)
    rw [hbump]
    unfold groupSpec
    rw [hfs, List.map_append]
    congr 1
    · refine List.map_congr_left ?_
      intro x hx
      have hxr : ¬(x = r) := fun hxr =>
        hr (hxr ▸ (mem_firstSeen _ _).mp hx)
      show (x, _) = (x, _)
      congr 1
      rw [kindsOf_append_singleton, if_neg (fun hrx => hxr hrx.symm),
        List.append_nil]
      refine List.map_congr_left ?_
      intro y hy
      rw [countPair_append_singleton, if_neg (fun hc => hxr hc.1.symm),
        Nat.add_zero]
    · show [(r, [(k, 1)])] = _
      simp only [List.map_cons, List.map_nil]
      congr 2
      rw [kindsOf_append_singleton, if_pos rfl,
        kindsOf_eq_nil ps r hr, List.nil_append]
      show [(k, 1)] = [(k, countPair (ps ++ [(r, k)]) r k)]
      rw [countPair_append_singleton, if_pos ⟨rfl, rfl⟩,
        countPair_eq_zero ps r k (by rw [kindsOf_eq_nil ps r hr]; exact List.not_mem_nil k)]

/-- Auxiliary: the event loop's grouped-count fold produces exactly the
insertion-ordered grouping. -/
theorem foldl_stepBump_groupSpec (ps : List (String × String)) :
    List.foldl stepBump [] ps = groupSpec ps := by
  induction ps using List.reverseRecOn with
  | nil => rfl
  | append_singleton qs p ih =>
    obtain ⟨r, k⟩ := p
    rw [List.foldl_append, List.foldl_cons, List.foldl_nil, ih]
    exact groupSpec_snoc qs r k

/-- Auxiliary: a skipped event emits no special message. -/
theorem specialMsgOf_skip (fl : Option String) (d : EventDict)
    (h : skipByFilter fl (d.type.getD "UnknownEvent") = true) :
    specialMsgOf fl d = none := by
  simp [specialMsgOf, h]

/-- Auxiliary: a skipped event contributes no grouped pair. -/
theorem groupedPair_skip (fl : Option String) (d : EventDict)
    (h : skipByFilter fl (d.type.getD "UnknownEvent") = true) :
    groupedPair fl d = none := by
  simp [groupedPair, h]

/-- Auxiliary: a non-skipped event emits the same special message as under
no filter. -/
theorem specialMsgOf_nofilter (f : String) (d : EventDict)
    (h : skipByFilter (some f) (d.type.getD "UnknownEvent") = false) :
    specialMsgOf (some f) d = specialMsgOf none d := by
  have hnone : skipByFilter none (d.type.getD "UnknownEvent") = false := rfl
  simp only [specialMsgOf, h, hnone, Bool.false_eq_true, if_false]

/-- Auxiliary: a non-skipped event contributes the same grouped pair as
under no filter. -/
theorem groupedPair_nofilter (f : String) (d : EventDict)
    (h : skipByFilter (some f) (d.type.getD "UnknownEvent") = false) :
    groupedPair (some f) d = groupedPair none d := by
  have hnone : skipByFilter none (d.type.getD "UnknownEvent") = false := rfl
  simp only [groupedPair, h, hnone, Bool.false_eq_true, if_false]

/-- Claim C4: on a non-empty list of well-formed records (first record with
an `actor` mapping and a parseable `created_at`), the returned message list
is exactly the special messages in emission order followed by the grouped
messages rendered from the insertion-ordered grouping: repositories by
first-seen position in the input, kinds by first-seen position within each
repository. -/
theorem display_message_order (fmtLocal : DateTime → String)
    (filter_type : Option String) (d0 : EventDict) (ds : List EventDict)
    (al : Option String) (ca : String) (dt : DateTime)
    (hactor : d0.actor = some al) (hca : d0.created_at = some ca)
    (hdt : strptimeIso ca = some dt) :
    display_github_activity fmtLocal ((d0 :: ds).map Event.dict) filter_type
      = .ok (some (fmtLocal dt),
          emittedSpecials filter_type (d0 :: ds)
            ++ renderGrouped (groupSpec (groupedPairs filter_type (d0 :: ds)))) := by
  have hloop := processEvents_dicts filter_type (d0 :: ds) [] []
  rw [foldl_stepBump_groupSpec, List.nil_append] at hloop
  simp only [List.map_cons] at hloop ⊢
  simp only [display_github_activity, getUser, hactor, getCreatedAt, hca,
    hdt, hloop]

/-- Witness for C4 at a concrete input: a star event followed by two push
events. -/
theorem display_message_order_witness :
    display_github_activity fmtX ((watchD "r1" :: [pushD, pushD]).map Event.dict) none
      = .ok (some (fmtX ⟨2024, 1, 1, 12, 0, 0⟩),
          emittedSpecials none (watchD "r1" :: [pushD, pushD])
            ++ renderGrouped (groupSpec (groupedPairs none (watchD "r1" :: [pushD, pushD])))) :=
  display_message_order fmtX none (watchD "r1") [pushD, pushD] (some "mia")
    "2024-01-01T12:00:00Z" ⟨2024, 1, 1, 12, 0, 0⟩ rfl rfl rfl

/-- Claim C6: the filter processes exactly the events whose kind contains
the filter string as a case-insensitive substring.  First conjunct: the
event loop under filter `f` equals the unfiltered loop on the sub-list of
matching events.  Second conjunct: the match test is exactly the
case-insensitive substring test (with the falsy empty string matching
everything).  Third conjunct: when no event matches, the call still returns
normally with an empty message list. -/
theorem display_filter_semantics (f : String) (ds : List EventDict) :
    (∀ (g : Grouped) (msgs : List String),
      processEvents (some f) (ds.map Event.dict) g msgs
        = processEvents none ((ds.map Event.dict).filter (eventMatches f)) g msgs)
    ∧ (∀ d : EventDict, eventMatches f (Event.dict d)
        = (decide (f = "")
            || strContains (pyLower (d.type.getD "UnknownEvent")) (pyLower f)))
    ∧ (∀ (fmtLocal : DateTime → String) (d0 : EventDict)
        (rest : List EventDict) (al : Option String) (ca : String)
        (dt : DateTime),
        ds = d0 :: rest → d0.actor = some al → d0.created_at = some ca
        → strptimeIso ca = some dt
        → (∀ d ∈ ds, eventMatches f (Event.dict d) = false)
        → display_github_activity fmtLocal (ds.map Event.dict) (some f)
            = .ok (some (fmtLocal dt), [])) := by
  have hstep : ∀ (d : EventDict) (g : Grouped) (msgs : List String),
      processEvent (some f) g msgs (.dict d)
        = if eventMatches f (Event.dict d) = true
          then processEvent none g msgs (.dict d)
          else .ok (g, msgs) := by
    intro d g msgs
    by_cases h : skipByFilter (some f) (d.type.getD "UnknownEvent") = true
    · have h1 := specialMsgOf_skip (some f) d h
      have h2 := groupedPair_skip (some f) d h
      rw [processEvent_dict, h1, h2]
      simp [eventMatches, h]
    · have hb : skipByFilter (some f) (d.type.getD "UnknownEvent") = false := by
        revert h
        cases skipByFilter (some f) (d.type.getD "UnknownEvent") <;> simp
      have h1 := specialMsgOf_nofilter f d hb
      have h2 := groupedPair_nofilter f d hb
      rw [processEvent_dict, processEvent_dict, h1, h2]
      simp [eventMatches, hb]
  have hmain : ∀ (l : List EventDict) (g : Grouped) (msgs : List String),
      processEvents (some f) (l.map Event.dict) g msgs
        = processEvents none ((l.map Event.dict).filter (eventMatches f)) g msgs := by
    intro l
    induction l with
    | nil =>
      intro g msgs
      rfl
    | cons d rest ih =>
      intro g msgs
      simp only [List.map_cons, List.filter_cons]
      by_cases hm : eventMatches f (Event.dict d) = true
      · rw [if_pos hm]
        simp only [processEvents]
        rw [hstep, if_pos hm]
        cases hpe : processEvent none g msgs (Event.dict d) with
        | ok p =>
          obtain ⟨g2, m2⟩ := p
          exact ih g2 m2
        | error err => rfl
      · rw [if_neg hm]
        simp only [processEvents]
        rw [hstep, if_neg hm]
        exact ih g msgs
  refine ⟨hmain ds, ?_, ?_⟩
  · intro d
    by_cases hf : f = ""
    · simp [eventMatches, skipByFilter, hf]
    · simp [eventMatches, skipByFilter, hf, strContains]
  · intro fmtLocal d0 rest al ca dt hds hactor hca hdt hnone
    subst hds
    have hfilter : ((d0 :: rest).map Event.dict).filter (eventMatches f) = [] := by
      rw [List.filter_eq_nil_iff]
      intro e he
      rcases List.mem_map.mp he with ⟨d, hd, rfl⟩
      simp [hnone d hd]
    have hloop : processEvents (some f) ((d0 :: rest).map Event.dict) [] []
        = ([], [], none) := by
      rw [hmain, hfilter]
      rfl
    simp only [List.map_cons] at hloop ⊢
    simp only [display_github_activity, getUser, hactor, getCreatedAt, hca,
      hdt, hloop]
    rfl

/-- Witness for C6 at concrete inputs: the unmatched filter `zzz` on one
push event returns normally with no messages, and the match test for filter
`push` is the substring test. -/
theorem display_filter_semantics_witness :
    display_github_activity fmtX ([pushD].map Event.dict) (some "zzz")
      = .ok (some (fmtX ⟨2024, 1, 1, 12, 0, 0⟩), [])
    ∧ eventMatches "push" (Event.dict pushD)
      = (decide (("push" : String) = "")
          || strContains (pyLower (pushD.type.getD "UnknownEvent"))
               (pyLower "push")) :=
  ⟨(display_filter_semantics "zzz" [pushD]).2.2 fmtX pushD [] (some "mia")
      "2024-01-01T12:00:00Z" ⟨2024, 1, 1, 12, 0, 0⟩ rfl rfl rfl rfl
      (by decide),
   (display_filter_semantics "push" [pushD]).2.1 pushD⟩

/-- Claim C3, amended: a malformed (non-mapping) event after well-formed
records yields exactly one diagnostic and stops the loop: the output
contains the special messages and grouped counts of the records processed
before it, then the diagnostic, and nothing for the events after it. -/
theorem display_malformed_event_partial_output (fmtLocal : DateTime → String)
    (filter_type : Option String) (d0 : EventDict) (pre : List EventDict)
    (post : List Event) (al : Option String) (ca : String) (dt : DateTime)
    (hactor : d0.actor = some al) (hca : d0.created_at = some ca)
    (hdt : strptimeIso ca = some dt) :
    display_github_activity fmtLocal
        ((d0 :: pre).map Event.dict ++ Event.nonDict :: post) filter_type
      = .ok (some (fmtLocal dt),
          emittedSpecials filter_type (d0 :: pre)
            ++ [tryDiagnostic (.attributeError "list element has no attribute get")]
            ++ renderGrouped (groupSpec (groupedPairs filter_type (d0 :: pre)))) := by
  have hstop : ∀ (g : Grouped) (m : List String),
      processEvents filter_type (Event.nonDict :: post) g m
        = (g, m, some (.attributeError "list element has no attribute get")) := by
    intro g m
    simp [processEvents, processEvent_nonDict]
  have happ := processEvents_append filter_type ((d0 :: pre).map Event.dict)
      (Event.nonDict :: post) [] []
  rw [processEvents_dicts] at happ
  simp only [] at happ
  rw [hstop, foldl_stepBump_groupSpec, List.nil_append] at happ
  simp only [List.map_cons, List.cons_append] at happ ⊢
  simp only [display_github_activity, getUser, hactor, getCreatedAt, hca,
    hdt, happ]

/-- Witness for C3 at a concrete input: a star event, then a malformed
element, then another star event that is not rendered. -/
theorem display_malformed_event_partial_output_witness :
    display_github_activity fmtX
        ((watchD "r1" :: []).map Event.dict
          ++ Event.nonDict :: [Event.dict (watchD "r2")]) none
      = .ok (some (fmtX ⟨2024, 1, 1, 12, 0, 0⟩),
          emittedSpecials none (watchD "r1" :: [])
            ++ [tryDiagnostic (.attributeError "list element has no attribute get")]
            ++ renderGrouped (groupSpec (groupedPairs none (watchD "r1" :: [])))) :=
  display_malformed_event_partial_output fmtX none (watchD "r1") []
    [Event.dict (watchD "r2")] (some "mia") "2024-01-01T12:00:00Z"
    ⟨2024, 1, 1, 12, 0, 0⟩ rfl rfl rfl

end UserActivity
